import Mathlib

/-!
Verification development for the briya-room-reservation notification core.

The JavaScript sources are shallowly embedded:
* `backend/src/recurrence/recurrenceEngine.js` — recurrence expansion;
* `src/services/calendarInviteService.js` — invitation diffing and the
  notification ledger (`reservation_invites` table);
* `backend/src/workers/emailWorker.js` — the polling worker, retry,
  backoff and dead-lettering over the `email_jobs` table;
* `src/utils/buildICS.js` and `src/utils/calendarUtils.js` — the ICS
  (iCalendar) document builder.

JavaScript `Date` values are modelled as a pair of a day number (days since
1970-01-01, the JS epoch) and a millisecond-of-day offset; this is exactly
the wall-clock ("floating time") reading the sources work with — the code
never converts time zones, and `Date` arithmetic such as
`setDate(getDate()+n)` or `setMonth(getMonth()+n)` is reproduced through
civil-calendar conversions (proleptic Gregorian, the same arithmetic JS
`Date` performs on its fields, including out-of-range rollover).
Database tables are modelled as in-memory lists of rows, SQL statements as
the corresponding pure list transformations, and the current clock
(`NOW()` / `new Date()`) as an explicit parameter.
-/

/- ===================== JS Date model ===================== -/

/-- A wall-clock instant: `days` since 1970-01-01 plus milliseconds of day. -/
structure JSDate where
  days : Int
  msOfDay : Nat
deriving DecidableEq, Repr

/-- Milliseconds value of a date (what JS `Date.prototype.getTime` returns in
a timezone-free reading). -/
def JSDate.toMs (d : JSDate) : Int := d.days * 86400000 + (d.msOfDay : Int)

/-- Civil date triple `(y, m, d)` to day number since 1970-01-01, proleptic
Gregorian; linear in `d`, so out-of-range days roll over exactly as JS
`Date` field arithmetic does (e.g. Feb 31 becomes Mar 3). -/
def daysFromCivil (y m d : Int) : Int :=
  let y' := if m ≤ 2 then y - 1 else y
  let era := Int.fdiv y' 400
  let yoe := y' - era * 400
  let mp := Int.fmod (m + 9) 12
  let doy := Int.fdiv (153 * mp + 2) 5 + d - 1
  let doe := yoe * 365 + Int.fdiv yoe 4 - Int.fdiv yoe 100 + doy
  era * 146097 + doe - 719468

/-- Day number since 1970-01-01 back to the civil triple `(y, m, d)`. -/
def civilFromDays (z : Int) : Int × Int × Int :=
  let z' := z + 719468
  let era := Int.fdiv z' 146097
  let doe := z' - era * 146097
  let yoe := Int.fdiv (doe - Int.fdiv doe 1460 + Int.fdiv doe 36524 - Int.fdiv doe 146096) 365
  let y := yoe + era * 400
  let doy := doe - (365 * yoe + Int.fdiv yoe 4 - Int.fdiv yoe 100)
  let mp := Int.fdiv (5 * doy + 2) 153
  let d := doy - Int.fdiv (153 * mp + 2) 5 + 1
  let m := if mp < 10 then mp + 3 else mp - 9
  (if m ≤ 2 then y + 1 else y, m, d)

/-- JS `getDay()`: weekday, 0 = Sunday … 6 = Saturday (1970-01-01 was a
Thursday, weekday 4). -/
def JSDate.getDay (dt : JSDate) : Int := Int.fmod (dt.days + 4) 7

/-- JS `setDate(getDate() + k)`: shifts a date by `k` whole days keeping the
time of day. -/
def JSDate.addDays (dt : JSDate) (k : Int) : JSDate :=
  { dt with days := dt.days + k }

/-- JS `setMonth(getMonth() + step)`: keeps the day-of-month field and time
of day, normalises the month into a year/month pair, and lets an
out-of-range day-of-month roll over into the following month. -/
def JSDate.addMonths (dt : JSDate) (step : Int) : JSDate :=
  match civilFromDays dt.days with
  | (y, m, d) =>
    let m0 := (m - 1) + step
    { dt with days := daysFromCivil (y + Int.fdiv m0 12) (Int.fmod m0 12 + 1) d }

/-- JS `setHours(23, 59, 59, 999)`: clamp to the end of the calendar day. -/
def JSDate.endOfDay (dt : JSDate) : JSDate :=
  { dt with msOfDay := 86399999 }

/-- Build a wall-clock instant from civil fields (year, month 1–12, day,
hour, minute). -/
def mkDate (y m d h mi : Int) : JSDate :=
  ⟨daysFromCivil y m d, ((h * 60 + mi) * 60000).toNat⟩

/-- Left-pad a numeral to two characters, as JS `String(n).padStart(2,"0")`
does for the in-range field values the sources format. -/
def pad2 (n : Int) : String :=
  if 0 ≤ n ∧ n < 10 then "0" ++ toString n else toString n

/- ===================== recurrenceEngine.js ===================== -/

/-- Backend weekend switch (`IS_WEEKENDS_ENABLED` in recurrenceEngine.js):
`false` means weekend instances are skipped during generation. -/
def IS_WEEKENDS_ENABLED : Bool := false

/-- `isWeekend` from recurrenceEngine.js: Sunday = 0, Saturday = 6. -/
def isWeekend (dt : JSDate) : Bool :=
  dt.getDay == 0 || dt.getDay == 6

/-- The local `dayKey` string `YYYY-MM-DD` the generation loop builds from
local date parts (`getFullYear`/`getMonth`/`getDate`). -/
def dayKeyOf (dt : JSDate) : String :=
  match civilFromDays dt.days with
  | (y, m, d) => toString y ++ "-" ++ pad2 m ++ "-" ++ pad2 d

/-- Validation failures thrown by `generateRecurrenceInstances`. -/
inductive RecurrenceError where
  | invalidStart
  | invalidEnd
  | invalidUntil
  | unsupportedFrequency (frequency : String)
deriving DecidableEq, Repr

/-- One generated `{ start, end }` range. -/
structure RecurrenceInstance where
  start : JSDate
  stop : JSDate
deriving DecidableEq, Repr

/-- The `interval` input as JS receives it: an integer number, or any value
for which `Number.isInteger(Number(interval))` is false (non-numeric or
fractional). -/
inductive JSInterval where
  | num (n : Int)
  | nonInteger
deriving DecidableEq, Repr

/-- The defensive interval normalisation:
`Number.isInteger(Number(interval)) && Number(interval) >= 1 ? interval : 1`. -/
def normalizeStep : JSInterval → Int
  | .num n => if 1 ≤ n then n else 1
  | .nonInteger => 1

/-- Cursor advance of the generation loop (`switch (frequency)`); an
unsupported frequency throws. -/
def advanceCursor (frequency : String) (step : Int) (cs ce : JSDate) :
    Except RecurrenceError (JSDate × JSDate) :=
  if frequency = "daily" then
    .ok (cs.addDays step, ce.addDays step)
  else if frequency = "weekly" then
    .ok (cs.addDays (step * 7), ce.addDays (step * 7))
  else if frequency = "monthly" then
    .ok (cs.addMonths step, ce.addMonths step)
  else
    .error (.unsupportedFrequency frequency)

/-- The `while (cursorStart <= untilDate)` generation loop, with explicit
fuel standing in for the loop's termination (each iteration advances the
cursor by at least one day, so the fuel chosen by
`generateRecurrenceInstances` is never exhausted before the condition
fails). An error thrown while advancing discards the instances collected so
far, as a JS exception does. -/
def genLoop (untilDate : JSDate) (frequency : String) (step : Int)
    (excludeDates : List String) :
    Nat → JSDate → JSDate → Except RecurrenceError (List RecurrenceInstance)
  | 0, _, _ => .ok []
  | fuel + 1, cursorStart, cursorEnd =>
    if cursorStart.toMs ≤ untilDate.toMs then
      let dayKey := dayKeyOf cursorStart
      let weekendOk := IS_WEEKENDS_ENABLED || !isWeekend cursorStart
      let excluded := excludeDates.contains dayKey
      let included :=
        if weekendOk && !excluded then [⟨cursorStart, cursorEnd⟩] else []
      match advanceCursor frequency step cursorStart cursorEnd with
      | .error e => .error e
      | .ok (cs', ce') =>
        (genLoop untilDate frequency step excludeDates fuel cs' ce').map
          (included ++ ·)
    else
      .ok []

/-- `generateRecurrenceInstances` from recurrenceEngine.js. Unparseable
dates are modelled as `none` (a JS `Date` whose time value is NaN). -/
def generateRecurrenceInstances (start stop untilInput : Option JSDate)
    (frequency : String) (interval : JSInterval) (excludeDates : List String) :
    Except RecurrenceError (List RecurrenceInstance) :=
  match start with
  | none => .error .invalidStart
  | some cursorStart =>
  match stop with
  | none => .error .invalidEnd
  | some cursorEnd =>
  match untilInput with
  | none => .error .invalidUntil
  | some u =>
    let untilDate := u.endOfDay
    let step := normalizeStep interval
    let fuel := (untilDate.toMs - cursorStart.toMs).toNat / 86400000 + 1
    genLoop untilDate frequency step excludeDates fuel cursorStart cursorEnd

/- ===================== calendarInviteService.js ===================== -/

/-- A reservation row as the invite service and the ICS builder read it.
JS `undefined`/`null`/empty organizer or attendee strings are all falsy and
behave identically in the sources, so absence is modelled as `""`. -/
structure Reservation where
  id : Nat
  title : String
  description : String
  email : String
  attendees_emails : String
  start_time : String
  end_time : String
  room_name_snapshot : String
  site_name_snapshot : String
deriving DecidableEq, Repr

/-- A row of the `reservation_invites` table (the notification ledger).
The `last_sent_at` timestamp is not modelled: the upsert's
`ON DUPLICATE KEY UPDATE last_sent_at = NOW()` only refreshes it, and no
claim reads it, so a row is identified with its unique key. -/
structure LedgerRow where
  reservation_id : Nat
  email : String
deriving DecidableEq, Repr

/-- Which renderer of emailTemplates.js produced a template. -/
inductive TemplateKind where
  | created
  | updated
  | cancelled
deriving DecidableEq, Repr

/-- A rendered email template. emailTemplates.js renders subject/html/text
purely from the reservation snapshot it is given (the html body goes
through locale- and timezone-dependent date formatting that has no
wall-clock embedding), so a template is modelled by the renderer used and
the snapshot it was rendered from. -/
structure EmailTemplate where
  kind : TemplateKind
  snapshot : Reservation
deriving DecidableEq, Repr

/-- `inviteCreatedTemplate` from emailTemplates.js. -/
def inviteCreatedTemplate (r : Reservation) : EmailTemplate := ⟨.created, r⟩

/-- `inviteUpdatedTemplate` from emailTemplates.js. -/
def inviteUpdatedTemplate (r : Reservation) : EmailTemplate := ⟨.updated, r⟩

/-- `inviteCancelledTemplate` from emailTemplates.js. -/
def inviteCancelledTemplate (r : Reservation) : EmailTemplate := ⟨.cancelled, r⟩

/-- Job types of the notification pipeline. -/
inductive JobType where
  | invite_create
  | invite_update
  | invite_cancel
deriving DecidableEq, Repr

/-- One call to `enqueueEmailJob(type, payload)`: the payload the invite
service serialises is `{ reservation, recipients, template }`. -/
structure EnqueuedJob where
  jobType : JobType
  reservation : Reservation
  recipients : List String
  template : EmailTemplate
deriving DecidableEq, Repr

/-- JS `value.split(",")` at the character level: split into the (possibly
empty) segments between commas. -/
def splitOnComma : List Char → List (List Char)
  | [] => [[]]
  | c :: rest =>
    match splitOnComma rest with
    | [] => [[]]
    | cur :: done => if c = ',' then [] :: cur :: done else (c :: cur) :: done

/-- The whitespace JS `String.prototype.trim` strips (the characters that
occur in this repository's data: space, tab, newline, carriage return). -/
def isJSWhitespace (c : Char) : Bool :=
  c = ' ' || c = '\t' || c = '\n' || c = '\r'

/-- JS `e.trim()`: drop whitespace from both ends. -/
def trimChars (cs : List Char) : List Char :=
  ((cs.dropWhile isJSWhitespace).reverse.dropWhile isJSWhitespace).reverse

/-- `splitEmails` from calendarInviteService.js: split on commas, trim each
part, drop empties; a falsy input yields `[]`. -/
def splitEmails (value : String) : List String :=
  if value = "" then []
  else ((splitOnComma value.data).map (fun cs => String.mk (trimChars cs))).filter
    (fun e => decide (e ≠ ""))

/-- JS `new Set(list)` materialised back as a list: deduplication keeping
the first occurrence, preserving insertion order (which is Set iteration
order). -/
def dedupFirst : List String → List String
  | [] => []
  | x :: xs => x :: (dedupFirst xs).filter (fun e => decide (e ≠ x))

/-- `getAlreadyInvitedEmails`: `SELECT email FROM reservation_invites WHERE
reservation_id = ?`. -/
def getAlreadyInvitedEmails (reservationId : Nat) (ledger : List LedgerRow) :
    List String :=
  (ledger.filter (fun row => decide (row.reservation_id = reservationId))).map
    (·.email)

/-- `markEmailInvited`: `INSERT … ON DUPLICATE KEY UPDATE last_sent_at =
NOW()` — inserts the `(reservation_id, email)` key if absent, otherwise
only refreshes the timestamp (a no-op in this model). -/
def markEmailInvited (reservationId : Nat) (email : String)
    (ledger : List LedgerRow) : List LedgerRow :=
  if ledger.any (fun row =>
      decide (row.reservation_id = reservationId) && decide (row.email = email)) then
    ledger
  else
    ledger ++ [⟨reservationId, email⟩]

/-- `removeInvitedEmail`: `DELETE FROM reservation_invites WHERE
reservation_id = ? AND email = ?`. -/
def removeInvitedEmail (reservationId : Nat) (email : String)
    (ledger : List LedgerRow) : List LedgerRow :=
  ledger.filter (fun row =>
    !(decide (row.reservation_id = reservationId) && decide (row.email = email)))

/-- `sendInvitesOnCreate` from calendarInviteService.js, returning the jobs
enqueued by the call and the ledger as left behind. -/
def sendInvitesOnCreate (reservation : Reservation)
    (ledger : List LedgerRow) : List EnqueuedJob × List LedgerRow :=
  let allRecipients :=
    dedupFirst (([reservation.email] ++ splitEmails reservation.attendees_emails).filter
      (fun e => decide (e ≠ "")))
  let alreadyInvited := getAlreadyInvitedEmails reservation.id ledger
  let newRecipients := allRecipients.filter (fun addr => !alreadyInvited.contains addr)
  if newRecipients = [] then
    ([], ledger)
  else
    ([⟨.invite_create, reservation, newRecipients, inviteCreatedTemplate reservation⟩],
     newRecipients.foldl (fun led addr => markEmailInvited reservation.id addr led)
       ledger)

/-- STEP 2 of `sendInvitesOnUpdate`: `for (const addr of nextEmails) if
(!prevEmails.has(addr)) { enqueue invite_update; markEmailInvited }`. -/
def addedLoop (reservation : Reservation) (reservationId : Nat)
    (prevEmails : List String) :
    List String → List LedgerRow → List EnqueuedJob × List LedgerRow
  | [], ledger => ([], ledger)
  | addr :: rest, ledger =>
    if prevEmails.contains addr then
      addedLoop reservation reservationId prevEmails rest ledger
    else
      let res := addedLoop reservation reservationId prevEmails rest
        (markEmailInvited reservationId addr ledger)
      (⟨.invite_update, reservation, [addr], inviteUpdatedTemplate reservation⟩ :: res.1,
       res.2)

/-- STEP 3 of `sendInvitesOnUpdate`: `for (const addr of prevEmails) if
(!nextEmails.has(addr)) { enqueue invite_cancel; removeInvitedEmail }`. -/
def removedLoop (previousReservation : Reservation) (reservationId : Nat)
    (nextEmails : List String) :
    List String → List LedgerRow → List EnqueuedJob × List LedgerRow
  | [], ledger => ([], ledger)
  | addr :: rest, ledger =>
    if nextEmails.contains addr then
      removedLoop previousReservation reservationId nextEmails rest ledger
    else
      let res := removedLoop previousReservation reservationId nextEmails rest
        (removeInvitedEmail reservationId addr ledger)
      (⟨.invite_cancel, previousReservation, [addr],
         inviteCancelledTemplate previousReservation⟩ :: res.1,
       res.2)

/-- `sendInvitesOnUpdate` from calendarInviteService.js: organizer change
handling (STEP 0), then the attendee diff (STEPs 1–3). -/
def sendInvitesOnUpdate (reservation previousReservation : Reservation)
    (ledger : List LedgerRow) : List EnqueuedJob × List LedgerRow :=
  let reservationId := reservation.id
  let oldOrganizer := previousReservation.email
  let newOrganizer := reservation.email
  let orgStep :=
    if oldOrganizer ≠ "" ∧ newOrganizer ≠ "" ∧ oldOrganizer ≠ newOrganizer then
      ([⟨.invite_update, reservation, [newOrganizer], inviteUpdatedTemplate reservation⟩,
        ⟨.invite_cancel, previousReservation, [oldOrganizer],
          inviteCancelledTemplate previousReservation⟩],
       removeInvitedEmail reservationId oldOrganizer
         (markEmailInvited reservationId newOrganizer ledger))
    else
      ([], ledger)
  let prevEmails := dedupFirst (splitEmails previousReservation.attendees_emails)
  let nextEmails := dedupFirst (splitEmails reservation.attendees_emails)
  let addStep := addedLoop reservation reservationId prevEmails nextEmails orgStep.2
  let removeStep :=
    removedLoop previousReservation reservationId nextEmails prevEmails addStep.2
  (orgStep.1 ++ addStep.1 ++ removeStep.1, removeStep.2)

/- ===================== emailWorker.js ===================== -/

/-- Status column of the `email_jobs` table. -/
inductive JobStatus where
  | pending
  | processing
  | failed
  | sent
deriving DecidableEq, Repr

/-- A row of the `email_jobs` table. `payload` is the opaque JSON text the
queue stores; timestamps are abstract tick counts. -/
structure EmailJob where
  id : Nat
  jobType : String
  payload : String
  status : JobStatus
  attempts : Option Nat
  lastError : Option String
  createdAt : Nat
  processedAt : Option Nat
deriving DecidableEq, Repr

/-- A row of the `email_jobs_dead` dead-letter table. -/
structure DeadLetterRecord where
  original_job_id : Nat
  jobType : String
  payload : String
  attempts : Nat
  last_error : String
  failed_at : Nat
deriving DecidableEq, Repr

/-- The durable state the worker mutates: the active queue and the
dead-letter table. -/
structure WorkerState where
  active : List EmailJob
  dead : List DeadLetterRecord
deriving DecidableEq, Repr

/-- Outcome of the body of `processSingleJob`'s try block (payload parsing,
template resolution, ICS build and the `sendMail` call): either the mail
transport accepted the message, or an error with a message was thrown. -/
inductive DeliveryResult where
  | success
  | failure (message : String)
deriving DecidableEq, Repr

/-- `MAX_ATTEMPTS` from emailWorker.js. -/
def MAX_ATTEMPTS : Nat := 5

/-- `BASE_DELAY_MINUTES` from emailWorker.js. -/
def BASE_DELAY_MINUTES : Nat := 2

/-- `getBackoffDelay` from emailWorker.js: `BASE_DELAY_MINUTES *
Math.pow(2, attempts - 1)` minutes. -/
def getBackoffDelay (attempts : Nat) : Nat :=
  BASE_DELAY_MINUTES * 2 ^ (attempts - 1)

/-- `UPDATE email_jobs SET … WHERE id = ?`: apply a field update to the
row(s) with the given id. -/
def updateJobRow (st : WorkerState) (id : Nat) (f : EmailJob → EmailJob) :
    WorkerState :=
  { st with active := st.active.map (fun j => if j.id = id then f j else j) }

/-- The worker's selection query: `SELECT * FROM email_jobs WHERE status IN
('pending','failed') AND (attempts IS NULL OR attempts < MAX_ATTEMPTS)
ORDER BY created_at ASC LIMIT 5`. Note it filters on status and attempts
only — no timestamp is consulted. -/
def selectJobs (st : WorkerState) : List EmailJob :=
  (((st.active.filter (fun j =>
      (decide (j.status = .pending) || decide (j.status = .failed)) &&
      (j.attempts.isNone || decide (j.attempts.getD 0 < MAX_ATTEMPTS)))).insertionSort
    (fun a b => a.createdAt ≤ b.createdAt)).take 5)

/-- `processSingleJob` from emailWorker.js, with the try-block body's
outcome given by `outcome` and the clock (`NOW()`) by `now`:
mark processing with the incremented attempt count; on success mark sent;
on failure either move the row to the dead-letter table (when the
incremented count reached `MAX_ATTEMPTS`) or mark it failed for retry. -/
def processSingleJob (st : WorkerState) (job : EmailJob)
    (outcome : DeliveryResult) (now : Nat) : WorkerState :=
  let attempts := job.attempts.getD 0 + 1
  let st1 := updateJobRow st job.id
    (fun j => { j with status := .processing, attempts := some attempts })
  match outcome with
  | .success =>
    updateJobRow st1 job.id
      (fun j => { j with status := .sent, processedAt := some now, lastError := none })
  | .failure message =>
    if MAX_ATTEMPTS ≤ attempts then
      { active := st1.active.filter (fun j => !decide (j.id = job.id)),
        dead := st1.dead ++
          [⟨job.id, job.jobType, job.payload, attempts, message, now⟩] }
    else
      updateJobRow st1 job.id
        (fun j => { j with status := .failed, attempts := some attempts,
                           lastError := some message, processedAt := some now })

/-- One tick of `processJobs`: select up to five due jobs and process them
sequentially; `oracle` gives each job's delivery outcome by id. -/
def processJobs (st : WorkerState) (oracle : Nat → DeliveryResult) (now : Nat) :
    WorkerState :=
  (selectJobs st).foldl (fun s job => processSingleJob s job (oracle job.id) now) st

/-- A run of the 30-second polling loop: one `processJobs` tick per
`(oracle, now)` pair. -/
def runTicks (st : WorkerState) : List ((Nat → DeliveryResult) × Nat) → WorkerState
  | [] => st
  | tick :: rest => runTicks (processJobs st tick.1 tick.2) rest

/- ===================== buildICS.js / calendarUtils.js ===================== -/

/-- JS `.replace(/c/g, repl)` for a single-character pattern, at the
character level. -/
def replaceAllChar (target : Char) (repl : List Char) : List Char → List Char
  | [] => []
  | c :: rest =>
    if c = target then repl ++ replaceAllChar target repl rest
    else c :: replaceAllChar target repl rest

/-- `escapeICS` from buildICS.js: escape backslash first, then newline,
comma and semicolon (each a global single-character replacement). -/
def escapeICS (text : String) : String :=
  String.mk (replaceAllChar ';' ['\\', ';']
    (replaceAllChar ',' ['\\', ',']
      (replaceAllChar '\n' ['\\', 'n']
        (replaceAllChar '\\' ['\\', '\\'] text.data))))

/-- Replace the first space with `T` (JS `value.replace(" ", "T")` with a
non-global pattern replaces only the first occurrence). -/
def replaceFirstSpaceWithT (cs : List Char) : List Char :=
  match cs with
  | [] => []
  | c :: rest => if c = ' ' then 'T' :: rest else c :: replaceFirstSpaceWithT rest

/-- String branch of `formatICSDate` (calendarUtils.js): strip `-` and `:`
globally (`.replace(/[-:]/g, "")`), then turn the first space into `T` —
`"YYYY-MM-DD HH:MM:SS"` becomes `"YYYYMMDDTHHMMSS"`. -/
def formatICSDateString (value : String) : String :=
  String.mk (replaceFirstSpaceWithT
    (value.data.filter (fun c => !(c = '-' || c = ':'))))

/-- Date-object branch of `formatICSDate` (calendarUtils.js): local fields,
two-digit padded, `YYYYMMDDTHHMMSS`. -/
def formatICSDateObj (dt : JSDate) : String :=
  match civilFromDays dt.days with
  | (y, m, d) =>
    toString y ++ pad2 m ++ pad2 d ++ "T" ++
    pad2 (dt.msOfDay / 3600000 : Nat) ++
    pad2 (dt.msOfDay / 60000 % 60 : Nat) ++
    pad2 (dt.msOfDay / 1000 % 60 : Nat)

/-- The stable event UID of buildICS.js: `reservation-${id}@briya.org`,
derived from the reservation id alone. -/
def icsUID (reservation : Reservation) : String :=
  "reservation-" ++ toString reservation.id ++ "@briya.org"

/-- JS `Array.prototype.join("\r\n")`. -/
def joinCRLF : List String → String
  | [] => ""
  | [x] => x
  | x :: xs => x ++ "\r\n" ++ joinCRLF xs

/-- The line array `buildICS` assembles before `.filter(Boolean)`. The
`DTSTAMP` value is `formatICSDate(new Date())`; the current clock is the
explicit `now` parameter. -/
def buildICSRawLines (method : String) (reservation : Reservation)
    (attendees : List String) (now : JSDate) : List String :=
  let attendeeLines := joinCRLF (attendees.map (fun addr =>
    "ATTENDEE;CN=" ++ escapeICS addr ++ ";RSVP=TRUE:MAILTO:" ++ addr))
  let organizerLine :=
    if reservation.email ≠ "" then
      "ORGANIZER;CN=Organizer:MAILTO:" ++ reservation.email
    else ""
  let summary :=
    escapeICS (if reservation.title ≠ "" then reservation.title else "Room Reservation")
  [ "BEGIN:VCALENDAR",
    "VERSION:2.0",
    "PRODID:-//Briya//Room Reservations//EN",
    "CALSCALE:GREGORIAN",
    "METHOD:" ++ method,
    "BEGIN:VEVENT",
    "UID:" ++ icsUID reservation,
    "DTSTAMP:" ++ formatICSDateObj now,
    "DTSTART:" ++ formatICSDateString reservation.start_time,
    "DTEND:" ++ formatICSDateString reservation.end_time,
    "SUMMARY:" ++ summary,
    "DESCRIPTION:" ++ escapeICS reservation.description,
    "LOCATION:" ++ escapeICS (reservation.site_name_snapshot ++ " - " ++
      reservation.room_name_snapshot),
    organizerLine,
    attendeeLines,
    if method = "CANCEL" then "STATUS:CANCELLED" else "",
    "END:VEVENT",
    "END:VCALENDAR" ]

/-- The lines of the finished document: `.filter(Boolean)` drops the empty
entries. -/
def buildICSLines (method : String) (reservation : Reservation)
    (attendees : List String) (now : JSDate) : List String :=
  (buildICSRawLines method reservation attendees now).filter
    (fun line => decide (line ≠ ""))

/-- `buildICS` from buildICS.js: the filtered lines joined with CRLF. -/
def buildICS (method : String) (reservation : Reservation)
    (attendees : List String) (now : JSDate) : String :=
  joinCRLF (buildICSLines method reservation attendees now)

/- ===================== Theorems ===================== -/

instance {ε α : Type _} [DecidableEq ε] [DecidableEq α] : DecidableEq (Except ε α)
  | .ok a, .ok b =>
    if h : a = b then .isTrue (congrArg Except.ok h)
    else .isFalse (fun he => h (Except.ok.inj he))
  | .error a, .error b =>
    if h : a = b then .isTrue (congrArg Except.error h)
    else .isFalse (fun he => h (Except.error.inj he))
  | .ok _, .error _ => .isFalse (fun he => Except.noConfusion he)
  | .error _, .ok _ => .isFalse (fun he => Except.noConfusion he)

/-- C5: For the rule start = 2025-01-06 09:00 (a Monday), end = 2025-01-06
10:00, frequency daily, interval 1, until = 2025-01-10 and no exclusions,
with the weekend policy disabled, `generateRecurrenceInstances` returns
exactly the five instances Jan 6, 7, 8, 9, 10, each 09:00–10:00 (the until
day is included thanks to the end-of-day clamp, and no Saturday or Sunday
appears); with excludeDates = ["2025-01-08"] it returns exactly the four
instances skipping Jan 8 only. -/
theorem generateRecurrenceInstances_daily_week_jan2025 :
    generateRecurrenceInstances (some (mkDate 2025 1 6 9 0))
        (some (mkDate 2025 1 6 10 0)) (some (mkDate 2025 1 10 0 0))
        "daily" (.num 1) []
      = .ok [⟨mkDate 2025 1 6 9 0, mkDate 2025 1 6 10 0⟩,
             ⟨mkDate 2025 1 7 9 0, mkDate 2025 1 7 10 0⟩,
             ⟨mkDate 2025 1 8 9 0, mkDate 2025 1 8 10 0⟩,
             ⟨mkDate 2025 1 9 9 0, mkDate 2025 1 9 10 0⟩,
             ⟨mkDate 2025 1 10 9 0, mkDate 2025 1 10 10 0⟩]
    ∧ generateRecurrenceInstances (some (mkDate 2025 1 6 9 0))
        (some (mkDate 2025 1 6 10 0)) (some (mkDate 2025 1 10 0 0))
        "daily" (.num 1) ["2025-01-08"]
      = .ok [⟨mkDate 2025 1 6 9 0, mkDate 2025 1 6 10 0⟩,
             ⟨mkDate 2025 1 7 9 0, mkDate 2025 1 7 10 0⟩,
             ⟨mkDate 2025 1 9 9 0, mkDate 2025 1 9 10 0⟩,
             ⟨mkDate 2025 1 10 9 0, mkDate 2025 1 10 10 0⟩] := by
  constructor <;> decide

/-- C7: The selection query of emailWorker.js filters on status and attempt
count only (`selectJobs` takes no clock at all), so a job that has just
failed its first delivery attempt is selected again by the very next
30-second tick even though the computed exponential backoff
(`getBackoffDelay 1 = 2` minutes) has not elapsed: no
"not-eligible-before" timestamp is consulted. -/
theorem worker_reselects_failed_job_without_backoff_gate :
    selectJobs ⟨[⟨1, "invite_create", "{}", .failed, some 1,
        some "smtp timeout", 0, some 1000⟩], []⟩
      = [⟨1, "invite_create", "{}", .failed, some 1,
          some "smtp timeout", 0, some 1000⟩]
    ∧ getBackoffDelay 1 = 2 := by
  constructor <;> decide

/-- C4 counterexample: for the valid rule start = 2025-01-31 09:00, end =
2025-02-01 10:00 (end > start), frequency monthly, interval 1, until =
2025-03-31, the second generated instance runs from Mar 3 09:00 to
Mar 1 10:00 — JS `setMonth` rolled Jan 31 over to Mar 3 but moved Feb 1 to
Mar 1 — so its duration differs from the rule's 25-hour duration. -/
theorem monthly_duration_not_preserved :
    generateRecurrenceInstances (some (mkDate 2025 1 31 9 0))
        (some (mkDate 2025 2 1 10 0)) (some (mkDate 2025 3 31 0 0))
        "monthly" (.num 1) []
      = .ok [⟨mkDate 2025 1 31 9 0, mkDate 2025 2 1 10 0⟩,
             ⟨mkDate 2025 3 3 9 0, mkDate 2025 3 1 10 0⟩]
    ∧ ¬ ((mkDate 2025 3 1 10 0).toMs - (mkDate 2025 3 3 9 0).toMs
          = (mkDate 2025 2 1 10 0).toMs - (mkDate 2025 1 31 9 0).toMs) := by
  constructor <;> decide

lemma JSDate.toMs_addDays (dt : JSDate) (k : Int) :
    (dt.addDays k).toMs = dt.toMs + k * 86400000 := by
  simp [JSDate.toMs, JSDate.addDays]; ring

lemma genLoop_duration_daily_weekly (untilD : JSDate) (freq : String)
    (step : Int) (excl : List String)
    (hfreq : freq = "daily" ∨ freq = "weekly") :
    ∀ (fuel : Nat) (cs ce : JSDate) (l : List RecurrenceInstance),
      genLoop untilD freq step excl fuel cs ce = .ok l →
      ∀ inst ∈ l, inst.stop.toMs - inst.start.toMs = ce.toMs - cs.toMs := by
  intro fuel
  induction fuel with
  | zero =>
    intro cs ce l h inst hi
    simp only [genLoop, Except.ok.injEq] at h
    subst h
    simp at hi
  | succ fuel ih =>
    intro cs ce l h inst hi
    have key : ∀ cs' ce' : JSDate,
        (genLoop untilD freq step excl fuel cs' ce').map
          ((if (IS_WEEKENDS_ENABLED || !isWeekend cs) &&
              !excl.contains (dayKeyOf cs) then [⟨cs, ce⟩] else []) ++ ·) = .ok l →
        ce'.toMs - cs'.toMs = ce.toMs - cs.toMs →
        inst.stop.toMs - inst.start.toMs = ce.toMs - cs.toMs := by
      intro cs' ce' hmap hdiff
      cases hg : genLoop untilD freq step excl fuel cs' ce' with
      | error e => rw [hg] at hmap; simp [Except.map] at hmap
      | ok l' =>
        rw [hg] at hmap
        simp only [Except.map, Except.ok.injEq] at hmap
        subst hmap
        rcases List.mem_append.mp hi with hmem | hmem
        · split at hmem
          · simp only [List.mem_singleton] at hmem
            subst hmem
            rfl
          · simp at hmem
        · rw [← hdiff]
          exact ih cs' ce' l' hg inst hmem
    rcases hfreq with hf | hf <;> subst hf <;>
      simp only [genLoop, advanceCursor, if_pos, reduceIte] at h
    · by_cases hcond : cs.toMs ≤ untilD.toMs
      · rw [if_pos hcond] at h
        exact key _ _ h (by rw [JSDate.toMs_addDays, JSDate.toMs_addDays]; ring)
      · rw [if_neg hcond] at h
        simp only [Except.ok.injEq] at h
        subst h
        simp at hi
    · by_cases hcond : cs.toMs ≤ untilD.toMs
      · rw [if_pos hcond] at h
        exact key _ _ h (by rw [JSDate.toMs_addDays, JSDate.toMs_addDays]; ring)
      · rw [if_neg hcond] at h
        simp only [Except.ok.injEq] at h
        subst h
        simp at hi

/-- C4 (amended): every instance generated with frequency "daily" or
"weekly" has exactly the duration `rule.end - rule.start` — daily and
weekly advances shift both cursors by the same whole number of days. (For
"monthly" this fails: see the counterexample where `setMonth` day-of-month
rollover shifts start and end by different amounts.) -/
theorem duration_preserved_daily_weekly (s e u : JSDate) (freq : String)
    (iv : JSInterval) (excl : List String) (l : List RecurrenceInstance)
    (hfreq : freq = "daily" ∨ freq = "weekly")
    (hok : generateRecurrenceInstances (some s) (some e) (some u) freq iv excl
      = .ok l) :
    ∀ inst ∈ l, inst.stop.toMs - inst.start.toMs = e.toMs - s.toMs := by
  intro inst hi
  simp only [generateRecurrenceInstances] at hok
  exact genLoop_duration_daily_weekly _ _ _ _ hfreq _ _ _ _ hok inst hi

/-- C4 witness: the second instance of the concrete daily rule of the
Jan 2025 example has exactly the rule's one-hour duration. -/
theorem duration_preserved_daily_weekly_witness :
    (⟨mkDate 2025 1 7 9 0, mkDate 2025 1 7 10 0⟩ : RecurrenceInstance).stop.toMs
        - (⟨mkDate 2025 1 7 9 0, mkDate 2025 1 7 10 0⟩ : RecurrenceInstance).start.toMs
      = (mkDate 2025 1 6 10 0).toMs - (mkDate 2025 1 6 9 0).toMs :=
  duration_preserved_daily_weekly (mkDate 2025 1 6 9 0) (mkDate 2025 1 6 10 0)
    (mkDate 2025 1 10 0 0) "daily" (.num 1) []
    [⟨mkDate 2025 1 6 9 0, mkDate 2025 1 6 10 0⟩,
     ⟨mkDate 2025 1 7 9 0, mkDate 2025 1 7 10 0⟩,
     ⟨mkDate 2025 1 8 9 0, mkDate 2025 1 8 10 0⟩,
     ⟨mkDate 2025 1 9 9 0, mkDate 2025 1 9 10 0⟩,
     ⟨mkDate 2025 1 10 9 0, mkDate 2025 1 10 10 0⟩]
    (Or.inl rfl) (by decide)
    ⟨mkDate 2025 1 7 9 0, mkDate 2025 1 7 10 0⟩ (by decide)

/-- C6 counterexample: an unsupported frequency is only detected inside the
generation loop, so when the loop body never runs (start after until) the
call returns an empty list instead of raising a validation error. -/
theorem invalid_frequency_without_iteration_no_error :
    generateRecurrenceInstances (some (mkDate 2025 1 2 9 0))
        (some (mkDate 2025 1 2 10 0)) (some (mkDate 2025 1 1 0 0))
        "yearly" (.num 1) [] = .ok []
    ∧ "yearly" ≠ "daily" ∧ "yearly" ≠ "weekly" ∧ "yearly" ≠ "monthly" := by
  refine ⟨by decide, by decide, by decide, by decide⟩

lemma advanceCursor_daily (step : Int) (cs ce : JSDate) :
    advanceCursor "daily" step cs ce = .ok (cs.addDays step, ce.addDays step) :=
  rfl

lemma advanceCursor_weekly (step : Int) (cs ce : JSDate) :
    advanceCursor "weekly" step cs ce
      = .ok (cs.addDays (step * 7), ce.addDays (step * 7)) :=
  rfl

lemma advanceCursor_monthly (step : Int) (cs ce : JSDate) :
    advanceCursor "monthly" step cs ce
      = .ok (cs.addMonths step, ce.addMonths step) :=
  rfl

lemma genLoop_succ_ok {untilD : JSDate} {freq : String} {step : Int}
    {excl : List String} {fuel : Nat} {cs ce cs' ce' : JSDate}
    (hadv : advanceCursor freq step cs ce = .ok (cs', ce'))
    (hcond : cs.toMs ≤ untilD.toMs) :
    genLoop untilD freq step excl (fuel + 1) cs ce
      = (genLoop untilD freq step excl fuel cs' ce').map
          ((if (IS_WEEKENDS_ENABLED || !isWeekend cs) &&
              !excl.contains (dayKeyOf cs) then [⟨cs, ce⟩] else []) ++ ·) := by
  rw [genLoop, if_pos hcond, hadv]

lemma genLoop_succ_stop {untilD : JSDate} {freq : String} {step : Int}
    {excl : List String} {fuel : Nat} {cs ce : JSDate}
    (hcond : ¬ cs.toMs ≤ untilD.toMs) :
    genLoop untilD freq step excl (fuel + 1) cs ce = .ok [] := by
  rw [genLoop, if_neg hcond]

lemma genLoop_no_error (untilD : JSDate) (freq : String) (step : Int)
    (excl : List String)
    (hfreq : freq = "daily" ∨ freq = "weekly" ∨ freq = "monthly") :
    ∀ (fuel : Nat) (cs ce : JSDate),
      ∃ l, genLoop untilD freq step excl fuel cs ce = .ok l := by
  intro fuel
  induction fuel with
  | zero => intro cs ce; exact ⟨[], rfl⟩
  | succ fuel ih =>
    intro cs ce
    by_cases hcond : cs.toMs ≤ untilD.toMs
    · rcases hfreq with hf | hf | hf <;> subst hf
      · obtain ⟨l', hl⟩ := ih (cs.addDays step) (ce.addDays step)
        refine ⟨(if (IS_WEEKENDS_ENABLED || !isWeekend cs) &&
            !excl.contains (dayKeyOf cs) then [⟨cs, ce⟩] else []) ++ l', ?_⟩
        rw [genLoop_succ_ok (advanceCursor_daily step cs ce) hcond, hl]
        rfl
      · obtain ⟨l', hl⟩ := ih (cs.addDays (step * 7)) (ce.addDays (step * 7))
        refine ⟨(if (IS_WEEKENDS_ENABLED || !isWeekend cs) &&
            !excl.contains (dayKeyOf cs) then [⟨cs, ce⟩] else []) ++ l', ?_⟩
        rw [genLoop_succ_ok (advanceCursor_weekly step cs ce) hcond, hl]
        rfl
      · obtain ⟨l', hl⟩ := ih (cs.addMonths step) (ce.addMonths step)
        refine ⟨(if (IS_WEEKENDS_ENABLED || !isWeekend cs) &&
            !excl.contains (dayKeyOf cs) then [⟨cs, ce⟩] else []) ++ l', ?_⟩
        rw [genLoop_succ_ok (advanceCursor_monthly step cs ce) hcond, hl]
        rfl
    · exact ⟨[], genLoop_succ_stop hcond⟩

/-- C6 (amended): `generateRecurrenceInstances` raises its validation
errors for an unparseable start, end or until date (checked in that
order); an unsupported frequency raises `unsupportedFrequency`, but only
when the generation loop runs at least one iteration (start ≤ the
end-of-day-clamped until) — otherwise the invalid frequency goes
undetected and an empty list is returned; an interval that is not a
positive integer never causes failure — it is coerced to 1 — and for a
supported frequency the function always returns a list. -/
theorem recurrence_validation_behavior :
    (∀ stop untilI freq iv excl,
      generateRecurrenceInstances none stop untilI freq iv excl
        = .error .invalidStart)
    ∧ (∀ s untilI freq iv excl,
      generateRecurrenceInstances (some s) none untilI freq iv excl
        = .error .invalidEnd)
    ∧ (∀ s e freq iv excl,
      generateRecurrenceInstances (some s) (some e) none freq iv excl
        = .error .invalidUntil)
    ∧ (∀ s e u freq iv excl, freq ≠ "daily" → freq ≠ "weekly" →
        freq ≠ "monthly" → s.toMs ≤ u.endOfDay.toMs →
      generateRecurrenceInstances (some s) (some e) (some u) freq iv excl
        = .error (.unsupportedFrequency freq))
    ∧ (∀ s e u freq excl n, n < 1 →
      generateRecurrenceInstances (some s) (some e) (some u) freq (.num n) excl
        = generateRecurrenceInstances (some s) (some e) (some u) freq (.num 1) excl)
    ∧ (∀ s e u freq excl,
      generateRecurrenceInstances (some s) (some e) (some u) freq .nonInteger excl
        = generateRecurrenceInstances (some s) (some e) (some u) freq (.num 1) excl)
    ∧ (∀ s e u freq iv excl,
        (freq = "daily" ∨ freq = "weekly" ∨ freq = "monthly") →
      ∃ l, generateRecurrenceInstances (some s) (some e) (some u) freq iv excl
        = .ok l) := by
  refine ⟨fun _ _ _ _ _ => rfl, fun _ _ _ _ _ => rfl, fun _ _ _ _ _ => rfl,
    ?_, ?_, ?_, ?_⟩
  · intro s e u freq iv excl h1 h2 h3 hle
    simp only [generateRecurrenceInstances, genLoop]
    rw [if_pos hle]
    simp [advanceCursor, h1, h2, h3]
  · intro s e u freq excl n hn
    have hstep : normalizeStep (.num n) = normalizeStep (.num 1) := by
      simp [normalizeStep]
      omega
    simp only [generateRecurrenceInstances, hstep]
  · intro s e u freq excl
    have hstep : normalizeStep .nonInteger = normalizeStep (.num 1) := by
      simp [normalizeStep]
    simp only [generateRecurrenceInstances, hstep]
  · intro s e u freq iv excl hfreq
    simp only [generateRecurrenceInstances]
    exact genLoop_no_error _ _ _ _ hfreq _ _ _

/-- C6 witness: the validation behaviors exercised at concrete inputs — a
missing start date errors, an unsupported frequency errors once the loop
runs, interval 0 is coerced to 1, and a supported frequency always
returns a list. -/
theorem recurrence_validation_behavior_witness :
    generateRecurrenceInstances none (some (mkDate 2025 1 2 9 0))
        (some (mkDate 2025 1 3 0 0)) "daily" (.num 1) []
      = .error .invalidStart
    ∧ generateRecurrenceInstances (some (mkDate 2025 1 2 9 0))
        (some (mkDate 2025 1 2 10 0)) (some (mkDate 2025 1 3 0 0))
        "yearly" (.num 1) []
      = .error (.unsupportedFrequency "yearly")
    ∧ generateRecurrenceInstances (some (mkDate 2025 1 2 9 0))
        (some (mkDate 2025 1 2 10 0)) (some (mkDate 2025 1 3 0 0))
        "daily" (.num 0) []
      = generateRecurrenceInstances (some (mkDate 2025 1 2 9 0))
        (some (mkDate 2025 1 2 10 0)) (some (mkDate 2025 1 3 0 0))
        "daily" (.num 1) []
    ∧ ∃ l, generateRecurrenceInstances (some (mkDate 2025 1 2 9 0))
        (some (mkDate 2025 1 2 10 0)) (some (mkDate 2025 1 3 0 0))
        "monthly" (.num 1) [] = .ok l :=
  ⟨recurrence_validation_behavior.1 _ _ _ _ _,
   recurrence_validation_behavior.2.2.2.1 _ _ _ _ _ _
     (by decide) (by decide) (by decide) (by decide),
   recurrence_validation_behavior.2.2.2.2.1 _ _ _ _ _ 0 (by decide),
   recurrence_validation_behavior.2.2.2.2.2.2 _ _ _ _ _ _
     (Or.inr (Or.inr rfl))⟩

/-- The NotificationJob invariant: while a row of the active queue has
status pending or failed, its attempt counter is below `MAX_ATTEMPTS`. -/
def activeInvariant (st : WorkerState) : Prop :=
  ∀ j ∈ st.active, (j.status = .pending ∨ j.status = .failed) →
    j.attempts.getD 0 < MAX_ATTEMPTS

lemma mem_updateJobRow {st : WorkerState} {id : Nat} {f : EmailJob → EmailJob}
    {j : EmailJob} (hj : j ∈ (updateJobRow st id f).active) :
    ∃ a ∈ st.active, j = if a.id = id then f a else a := by
  simp only [updateJobRow, List.mem_map] at hj
  obtain ⟨a, ha, rfl⟩ := hj
  exact ⟨a, ha, rfl⟩

lemma activeInvariant_processSingleJob (st : WorkerState) (job : EmailJob)
    (outcome : DeliveryResult) (now : Nat) (h : activeInvariant st) :
    activeInvariant (processSingleJob st job outcome now) := by
  intro j hj hstat
  cases outcome with
  | success =>
    obtain ⟨b, hb, rfl⟩ := mem_updateJobRow hj
    by_cases hid : b.id = job.id
    · rw [if_pos hid] at hstat
      simp at hstat
    · rw [if_neg hid]
      rw [if_neg hid] at hstat
      obtain ⟨a, ha, rfl⟩ := mem_updateJobRow hb
      by_cases hid' : a.id = job.id
      · rw [if_pos hid'] at hstat
        simp at hstat
      · rw [if_neg hid'] at hstat ⊢
        exact h a ha hstat
  | failure message =>
    simp only [processSingleJob] at hj
    by_cases hmax : MAX_ATTEMPTS ≤ job.attempts.getD 0 + 1
    · rw [if_pos hmax] at hj
      simp only [List.mem_filter] at hj
      obtain ⟨a, ha, rfl⟩ := mem_updateJobRow hj.1
      by_cases hid : a.id = job.id
      · rw [if_pos hid] at hstat
        simp at hstat
      · rw [if_neg hid] at hstat ⊢
        exact h a ha hstat
    · rw [if_neg hmax] at hj
      obtain ⟨b, hb, rfl⟩ := mem_updateJobRow hj
      by_cases hid : b.id = job.id
      · rw [if_pos hid]
        simp only [Option.getD_some]
        omega
      · rw [if_neg hid]
        rw [if_neg hid] at hstat
        obtain ⟨a, ha, rfl⟩ := mem_updateJobRow hb
        by_cases hid' : a.id = job.id
        · rw [if_pos hid'] at hstat
          simp at hstat
        · rw [if_neg hid'] at hstat ⊢
          exact h a ha hstat

lemma activeInvariant_foldl (jobs : List EmailJob)
    (oracle : Nat → DeliveryResult) (now : Nat) :
    ∀ st, activeInvariant st →
      activeInvariant (jobs.foldl
        (fun s job => processSingleJob s job (oracle job.id) now) st) := by
  induction jobs with
  | nil => intro st h; exact h
  | cons j rest ih =>
    intro st h
    exact ih _ (activeInvariant_processSingleJob st j (oracle j.id) now h)

lemma activeInvariant_processJobs (st : WorkerState)
    (oracle : Nat → DeliveryResult) (now : Nat) (h : activeInvariant st) :
    activeInvariant (processJobs st oracle now) :=
  activeInvariant_foldl (selectJobs st) oracle now st h

/-- C2: when a delivery attempt fails and the incremented attempt counter
has reached `MAX_ATTEMPTS` (5), exactly one record carrying attempts = 5
and the error message is appended to the dead-letter table and every row
with the job's id is deleted from the active queue; and the invariant
"no active row has status pending or failed together with attempts ≥
MAX_ATTEMPTS" is preserved by every worker tick, hence by any run of the
polling loop. -/
theorem worker_dead_letters_exhausted_and_invariant :
    (∀ (st : WorkerState) (job : EmailJob) (message : String) (now : Nat),
      job.attempts.getD 0 + 1 = MAX_ATTEMPTS →
        (processSingleJob st job (.failure message) now).dead
          = st.dead ++ [⟨job.id, job.jobType, job.payload, MAX_ATTEMPTS,
              message, now⟩]
        ∧ ∀ j ∈ (processSingleJob st job (.failure message) now).active,
            j.id ≠ job.id)
    ∧ (∀ (st : WorkerState) (ticks : List ((Nat → DeliveryResult) × Nat)),
        activeInvariant st → activeInvariant (runTicks st ticks)) := by
  constructor
  · intro st job message now hreach
    have hmax : MAX_ATTEMPTS ≤ job.attempts.getD 0 + 1 := le_of_eq hreach.symm
    constructor
    · simp only [processSingleJob, if_pos hmax]
      rw [hreach]
      rfl
    · intro j hj
      simp only [processSingleJob, if_pos hmax, List.mem_filter] at hj
      simpa using hj.2
  · intro st ticks
    induction ticks generalizing st with
    | nil => intro h; exact h
    | cons tick rest ih =>
      intro h
      exact ih _ (activeInvariant_processJobs st tick.1 tick.2 h)

/-- C2 witness: a job on its fifth failing attempt is dead-lettered with
attempts = 5 and removed from the active queue, at a concrete state. -/
theorem worker_dead_letters_exhausted_witness :
    activeInvariant (runTicks
      ⟨[⟨1, "invite_create", "{}", .pending, none, none, 0, none⟩], []⟩
      [(fun _ => .failure "smtp down", 3)])
    ∧ (processSingleJob
          ⟨[⟨2, "invite_update", "{}", .failed, some 4, some "x", 0, some 40⟩], []⟩
          ⟨2, "invite_update", "{}", .failed, some 4, some "x", 0, some 40⟩
          (.failure "smtp down") 7).dead
        = [] ++ [⟨2, "invite_update", "{}", MAX_ATTEMPTS, "smtp down", 7⟩]
    ∧ ∀ j ∈ (processSingleJob
          ⟨[⟨2, "invite_update", "{}", .failed, some 4, some "x", 0, some 40⟩], []⟩
          ⟨2, "invite_update", "{}", .failed, some 4, some "x", 0, some 40⟩
          (.failure "smtp down") 7).active,
        j.id ≠ (⟨2, "invite_update", "{}", .failed, some 4, some "x", 0,
          some 40⟩ : EmailJob).id := by
  refine ⟨?_, ?_, ?_⟩
  · refine worker_dead_letters_exhausted_and_invariant.2 _ _ ?_
    intro j hj hstat
    simp only [List.mem_singleton] at hj
    subst hj
    decide
  · exact (worker_dead_letters_exhausted_and_invariant.1 _ _ "smtp down" 7
      (by decide)).1
  · exact (worker_dead_letters_exhausted_and_invariant.1 _ _ "smtp down" 7
      (by decide)).2

lemma splitEmails_ne_empty {v x : String} (hx : x ∈ splitEmails v) : x ≠ "" := by
  simp only [splitEmails] at hx
  split at hx
  · simp at hx
  · simp only [List.mem_filter, decide_eq_true_eq] at hx
    exact hx.2

lemma ledger_filter_append_rows (r : Reservation) (ledger : List LedgerRow)
    (rows : List LedgerRow) (hled : ∀ row ∈ ledger, row.reservation_id ≠ r.id)
    (hrows : ∀ row ∈ rows, row.reservation_id = r.id) :
    (ledger ++ rows).filter (fun row => decide (row.reservation_id = r.id))
      = rows := by
  rw [List.filter_append]
  have h1 : ledger.filter (fun row => decide (row.reservation_id = r.id)) = [] := by
    rw [List.filter_eq_nil_iff]
    intro row hrow
    simp [hled row hrow]
  have h2 : rows.filter (fun row => decide (row.reservation_id = r.id)) = rows := by
    rw [List.filter_eq_self]
    intro row hrow
    simp [hrows row hrow]
  rw [h1, h2, List.nil_append]

lemma sendInvitesOnCreate_fresh (r : Reservation) (ledger : List LedgerRow)
    (o a b : String) (ho : r.email = o)
    (hatt : splitEmails r.attendees_emails = [a, b]) (hoe : o ≠ "")
    (hoa : o ≠ a) (hob : o ≠ b) (hab : a ≠ b)
    (hled : ∀ row ∈ ledger, row.reservation_id ≠ r.id) :
    sendInvitesOnCreate r ledger
      = ([⟨.invite_create, r, [o, a, b], inviteCreatedTemplate r⟩],
         ledger ++ [⟨r.id, o⟩, ⟨r.id, a⟩, ⟨r.id, b⟩]) := by
  have ha' : a ≠ "" := splitEmails_ne_empty
    (show a ∈ splitEmails r.attendees_emails by rw [hatt]; simp)
  have hb' : b ≠ "" := splitEmails_ne_empty
    (show b ∈ splitEmails r.attendees_emails by rw [hatt]; simp)
  have hao : a ≠ o := Ne.symm hoa
  have hbo : b ≠ o := Ne.symm hob
  have hba : b ≠ a := Ne.symm hab
  have hfilter : ledger.filter (fun row => decide (row.reservation_id = r.id))
      = [] := by
    rw [List.filter_eq_nil_iff]
    intro row hrow
    simp [hled row hrow]
  have hnone : ∀ x : String,
      ¬ ∃ row ∈ ledger, row.reservation_id = r.id ∧ row.email = x := by
    rintro x ⟨row, hrow, h1, _⟩
    exact hled row hrow h1
  have hcond2 : ¬ ∃ x ∈ ledger ++ [(⟨r.id, o⟩ : LedgerRow)],
      x.reservation_id = r.id ∧ x.email = a := by
    rintro ⟨x, hx, h1, h2⟩
    rcases List.mem_append.mp hx with hx | hx
    · exact hled x hx h1
    · simp only [List.mem_singleton] at hx
      subst hx
      exact hoa h2
  have hcond3 : ¬ ∃ x ∈ ledger ++ [(⟨r.id, o⟩ : LedgerRow), ⟨r.id, a⟩],
      x.reservation_id = r.id ∧ x.email = b := by
    rintro ⟨x, hx, h1, h2⟩
    rcases List.mem_append.mp hx with hx | hx
    · exact hled x hx h1
    · simp only [List.mem_cons, List.not_mem_nil, or_false] at hx
      rcases hx with hx | hx
      · subst hx
        exact hob h2
      · subst hx
        exact hab h2
  simp only [sendInvitesOnCreate, ho, hatt, getAlreadyInvitedEmails, hfilter,
    List.map_nil]
  simp [dedupFirst, hoe, ha', hb', hao, hbo, hba, hoa, hob, hab,
    markEmailInvited, hnone, hcond2, hcond3]
  rw [if_neg hcond2, if_neg hcond3]
  simp

lemma sendInvitesOnCreate_rerun (r : Reservation) (ledger : List LedgerRow)
    (o a b : String) (ho : r.email = o)
    (hatt : splitEmails r.attendees_emails = [a, b]) (hoe : o ≠ "")
    (hoa : o ≠ a) (hob : o ≠ b) (hab : a ≠ b)
    (hled : ∀ row ∈ ledger, row.reservation_id ≠ r.id) :
    (sendInvitesOnCreate r
        (ledger ++ [⟨r.id, o⟩, ⟨r.id, a⟩, ⟨r.id, b⟩])).1 = [] := by
  have hfilter : (ledger ++ [(⟨r.id, o⟩ : LedgerRow), ⟨r.id, a⟩,
      ⟨r.id, b⟩]).filter (fun row => decide (row.reservation_id = r.id))
      = [⟨r.id, o⟩, ⟨r.id, a⟩, ⟨r.id, b⟩] :=
    ledger_filter_append_rows r ledger _ hled (by
      intro row hrow
      simp only [List.mem_cons, List.not_mem_nil, or_false] at hrow
      rcases hrow with h | h | h <;> subst h <;> rfl)
  have ha' : a ≠ "" := splitEmails_ne_empty
    (show a ∈ splitEmails r.attendees_emails by rw [hatt]; simp)
  have hb' : b ≠ "" := splitEmails_ne_empty
    (show b ∈ splitEmails r.attendees_emails by rw [hatt]; simp)
  have hao : a ≠ o := Ne.symm hoa
  have hbo : b ≠ o := Ne.symm hob
  have hba : b ≠ a := Ne.symm hab
  simp only [sendInvitesOnCreate, ho, hatt, getAlreadyInvitedEmails, hfilter]
  simp [dedupFirst, hoe, ha', hb', hao, hbo, hba, hoa, hob, hab]

/-- C1: for a booking with organizer `o` and attendees `a`, `b` (pairwise
distinct, non-empty) and no prior ledger rows for the booking, one call to
`sendInvitesOnCreate` enqueues exactly one `invite_create` job whose
recipients are the deduplicated union [o, a, b], and the ledger afterwards
holds exactly the three rows keyed (bookingId, recipientEmail); a second
call on the resulting ledger enqueues no job (idempotent re-entry). -/
theorem sendInvitesOnCreate_single_job_and_idempotent
    (r : Reservation) (ledger : List LedgerRow) (o a b : String)
    (ho : r.email = o) (hatt : splitEmails r.attendees_emails = [a, b])
    (hoe : o ≠ "") (hoa : o ≠ a) (hob : o ≠ b) (hab : a ≠ b)
    (hled : ∀ row ∈ ledger, row.reservation_id ≠ r.id) :
    (sendInvitesOnCreate r ledger).1
        = [⟨.invite_create, r, [o, a, b], inviteCreatedTemplate r⟩]
    ∧ ((sendInvitesOnCreate r ledger).2).filter
        (fun row => decide (row.reservation_id = r.id))
        = [⟨r.id, o⟩, ⟨r.id, a⟩, ⟨r.id, b⟩]
    ∧ (sendInvitesOnCreate r (sendInvitesOnCreate r ledger).2).1 = [] := by
  have hfresh := sendInvitesOnCreate_fresh r ledger o a b ho hatt hoe hoa hob
    hab hled
  refine ⟨by rw [hfresh], ?_, ?_⟩
  · rw [hfresh]
    exact ledger_filter_append_rows r ledger _ hled (by
      intro row hrow
      simp only [List.mem_cons, List.not_mem_nil, or_false] at hrow
      rcases hrow with h | h | h <;> subst h <;> rfl)
  · rw [hfresh]
    exact sendInvitesOnCreate_rerun r ledger o a b ho hatt hoe hoa hob hab hled

/-- C1 witness: the create path at a concrete booking — one job for
[organizer, two attendees], three ledger rows, and a silent second call. -/
theorem sendInvitesOnCreate_single_job_witness :
    (sendInvitesOnCreate
        ⟨7, "t", "", "o@x.org", "a@x.org, b@x.org", "", "", "R", "S"⟩ []).1
        = [⟨.invite_create,
            ⟨7, "t", "", "o@x.org", "a@x.org, b@x.org", "", "", "R", "S"⟩,
            ["o@x.org", "a@x.org", "b@x.org"],
            inviteCreatedTemplate
              ⟨7, "t", "", "o@x.org", "a@x.org, b@x.org", "", "", "R", "S"⟩⟩]
    ∧ ((sendInvitesOnCreate
        ⟨7, "t", "", "o@x.org", "a@x.org, b@x.org", "", "", "R", "S"⟩ []).2).filter
        (fun row => decide (row.reservation_id
          = (⟨7, "t", "", "o@x.org", "a@x.org, b@x.org", "", "", "R", "S"⟩ :
              Reservation).id))
        = [⟨7, "o@x.org"⟩, ⟨7, "a@x.org"⟩, ⟨7, "b@x.org"⟩]
    ∧ (sendInvitesOnCreate
        ⟨7, "t", "", "o@x.org", "a@x.org, b@x.org", "", "", "R", "S"⟩
        (sendInvitesOnCreate
          ⟨7, "t", "", "o@x.org", "a@x.org, b@x.org", "", "", "R", "S"⟩ []).2).1
        = [] :=
  sendInvitesOnCreate_single_job_and_idempotent
    ⟨7, "t", "", "o@x.org", "a@x.org, b@x.org", "", "", "R", "S"⟩ []
    "o@x.org" "a@x.org" "b@x.org" rfl (by decide) (by decide) (by decide)
    (by decide) (by decide) (fun row hrow => absurd hrow (List.not_mem_nil row))

lemma sendInvitesOnUpdate_diff_run
    (next prev : Reservation) (o1 o2 a b c : String)
    (hpo : prev.email = o1) (hno : next.email = o2)
    (hpatt : splitEmails prev.attendees_emails = [a, b])
    (hnatt : splitEmails next.attendees_emails = [a, c])
    (ho1 : o1 ≠ "") (ho2 : o2 ≠ "") (h12 : o1 ≠ o2)
    (h1a : o1 ≠ a) (h1b : o1 ≠ b) (h1c : o1 ≠ c)
    (h2a : o2 ≠ a) (h2b : o2 ≠ b) (h2c : o2 ≠ c)
    (hab : a ≠ b) (hac : a ≠ c) (hbc : b ≠ c) :
    sendInvitesOnUpdate next prev
        [⟨next.id, o1⟩, ⟨next.id, a⟩, ⟨next.id, b⟩]
      = ([⟨.invite_update, next, [o2], inviteUpdatedTemplate next⟩,
          ⟨.invite_cancel, prev, [o1], inviteCancelledTemplate prev⟩,
          ⟨.invite_update, next, [c], inviteUpdatedTemplate next⟩,
          ⟨.invite_cancel, prev, [b], inviteCancelledTemplate prev⟩],
         [⟨next.id, a⟩, ⟨next.id, o2⟩, ⟨next.id, c⟩]) := by
  have h21 : o2 ≠ o1 := Ne.symm h12
  have ha1 : a ≠ o1 := Ne.symm h1a
  have hb1 : b ≠ o1 := Ne.symm h1b
  have hc1 : c ≠ o1 := Ne.symm h1c
  have ha2 : a ≠ o2 := Ne.symm h2a
  have hb2 : b ≠ o2 := Ne.symm h2b
  have hc2 : c ≠ o2 := Ne.symm h2c
  have hba : b ≠ a := Ne.symm hab
  have hca : c ≠ a := Ne.symm hac
  have hcb : c ≠ b := Ne.symm hbc
  simp only [sendInvitesOnUpdate, hpo, hno, hpatt, hnatt]
  rw [if_pos ⟨ho1, ho2, h12⟩]
  simp [markEmailInvited, removeInvitedEmail, addedLoop, removedLoop,
    dedupFirst, h12, h21, h1a, h1b, h1c, h2a, h2b, h2c, hab, hac, hbc,
    ha1, hb1, hc1, ha2, hb2, hc2, hba, hca, hcb]

/-- C3: for an update replacing organizer `o1` by `o2` (both present) and
replacing attendee `b` by `c` while `a` stays (all five addresses pairwise
distinct), and starting from the ledger the create path left for
{o1, a, b}, `sendInvitesOnUpdate` enqueues exactly four single-recipient
jobs in order — invite_update to [o2], invite_cancel to [o1],
invite_update to [c], invite_cancel to [b] — and the ledger afterwards
holds rows for o2, a and c but none for o1 or b. -/
theorem sendInvitesOnUpdate_organizer_and_attendee_diff
    (next prev : Reservation) (o1 o2 a b c : String)
    (hpo : prev.email = o1) (hno : next.email = o2)
    (hpatt : splitEmails prev.attendees_emails = [a, b])
    (hnatt : splitEmails next.attendees_emails = [a, c])
    (ho1 : o1 ≠ "") (ho2 : o2 ≠ "") (h12 : o1 ≠ o2)
    (h1a : o1 ≠ a) (h1b : o1 ≠ b) (h1c : o1 ≠ c)
    (h2a : o2 ≠ a) (h2b : o2 ≠ b) (h2c : o2 ≠ c)
    (hab : a ≠ b) (hac : a ≠ c) (hbc : b ≠ c) :
    (sendInvitesOnUpdate next prev
        [⟨next.id, o1⟩, ⟨next.id, a⟩, ⟨next.id, b⟩]).1
      = [⟨.invite_update, next, [o2], inviteUpdatedTemplate next⟩,
         ⟨.invite_cancel, prev, [o1], inviteCancelledTemplate prev⟩,
         ⟨.invite_update, next, [c], inviteUpdatedTemplate next⟩,
         ⟨.invite_cancel, prev, [b], inviteCancelledTemplate prev⟩]
    ∧ ((⟨next.id, o2⟩ : LedgerRow) ∈ (sendInvitesOnUpdate next prev
          [⟨next.id, o1⟩, ⟨next.id, a⟩, ⟨next.id, b⟩]).2
      ∧ (⟨next.id, a⟩ : LedgerRow) ∈ (sendInvitesOnUpdate next prev
          [⟨next.id, o1⟩, ⟨next.id, a⟩, ⟨next.id, b⟩]).2
      ∧ (⟨next.id, c⟩ : LedgerRow) ∈ (sendInvitesOnUpdate next prev
          [⟨next.id, o1⟩, ⟨next.id, a⟩, ⟨next.id, b⟩]).2)
    ∧ ((⟨next.id, o1⟩ : LedgerRow) ∉ (sendInvitesOnUpdate next prev
          [⟨next.id, o1⟩, ⟨next.id, a⟩, ⟨next.id, b⟩]).2
      ∧ (⟨next.id, b⟩ : LedgerRow) ∉ (sendInvitesOnUpdate next prev
          [⟨next.id, o1⟩, ⟨next.id, a⟩, ⟨next.id, b⟩]).2) := by
  have hrun := sendInvitesOnUpdate_diff_run next prev o1 o2 a b c hpo hno
    hpatt hnatt ho1 ho2 h12 h1a h1b h1c h2a h2b h2c hab hac hbc
  rw [hrun]
  refine ⟨rfl, ⟨by simp, by simp, by simp⟩, ?_, ?_⟩
  · simp [h1a, Ne.symm h12, h1c, fun h : o1 = o2 => h12 h]
  · simp [Ne.symm hab, Ne.symm h2b, hbc]

/-- C3 witness: the four jobs and the resulting ledger at a concrete
organizer change (o1 → o2) with attendee b replaced by c. -/
theorem sendInvitesOnUpdate_diff_witness :
    (sendInvitesOnUpdate
        ⟨7, "t", "", "o2@x", "a@x,c@x", "", "", "R", "S"⟩
        ⟨7, "t", "", "o1@x", "a@x,b@x", "", "", "R", "S"⟩
        [⟨7, "o1@x"⟩, ⟨7, "a@x"⟩, ⟨7, "b@x"⟩]).1
      = [⟨.invite_update, ⟨7, "t", "", "o2@x", "a@x,c@x", "", "", "R", "S"⟩,
          ["o2@x"], inviteUpdatedTemplate
            ⟨7, "t", "", "o2@x", "a@x,c@x", "", "", "R", "S"⟩⟩,
         ⟨.invite_cancel, ⟨7, "t", "", "o1@x", "a@x,b@x", "", "", "R", "S"⟩,
          ["o1@x"], inviteCancelledTemplate
            ⟨7, "t", "", "o1@x", "a@x,b@x", "", "", "R", "S"⟩⟩,
         ⟨.invite_update, ⟨7, "t", "", "o2@x", "a@x,c@x", "", "", "R", "S"⟩,
          ["c@x"], inviteUpdatedTemplate
            ⟨7, "t", "", "o2@x", "a@x,c@x", "", "", "R", "S"⟩⟩,
         ⟨.invite_cancel, ⟨7, "t", "", "o1@x", "a@x,b@x", "", "", "R", "S"⟩,
          ["b@x"], inviteCancelledTemplate
            ⟨7, "t", "", "o1@x", "a@x,b@x", "", "", "R", "S"⟩⟩]
    ∧ ((⟨7, "o2@x"⟩ : LedgerRow) ∈ (sendInvitesOnUpdate
          ⟨7, "t", "", "o2@x", "a@x,c@x", "", "", "R", "S"⟩
          ⟨7, "t", "", "o1@x", "a@x,b@x", "", "", "R", "S"⟩
          [⟨7, "o1@x"⟩, ⟨7, "a@x"⟩, ⟨7, "b@x"⟩]).2
      ∧ (⟨7, "a@x"⟩ : LedgerRow) ∈ (sendInvitesOnUpdate
          ⟨7, "t", "", "o2@x", "a@x,c@x", "", "", "R", "S"⟩
          ⟨7, "t", "", "o1@x", "a@x,b@x", "", "", "R", "S"⟩
          [⟨7, "o1@x"⟩, ⟨7, "a@x"⟩, ⟨7, "b@x"⟩]).2
      ∧ (⟨7, "c@x"⟩ : LedgerRow) ∈ (sendInvitesOnUpdate
          ⟨7, "t", "", "o2@x", "a@x,c@x", "", "", "R", "S"⟩
          ⟨7, "t", "", "o1@x", "a@x,b@x", "", "", "R", "S"⟩
          [⟨7, "o1@x"⟩, ⟨7, "a@x"⟩, ⟨7, "b@x"⟩]).2)
    ∧ ((⟨7, "o1@x"⟩ : LedgerRow) ∉ (sendInvitesOnUpdate
          ⟨7, "t", "", "o2@x", "a@x,c@x", "", "", "R", "S"⟩
          ⟨7, "t", "", "o1@x", "a@x,b@x", "", "", "R", "S"⟩
          [⟨7, "o1@x"⟩, ⟨7, "a@x"⟩, ⟨7, "b@x"⟩]).2
      ∧ (⟨7, "b@x"⟩ : LedgerRow) ∉ (sendInvitesOnUpdate
          ⟨7, "t", "", "o2@x", "a@x,c@x", "", "", "R", "S"⟩
          ⟨7, "t", "", "o1@x", "a@x,b@x", "", "", "R", "S"⟩
          [⟨7, "o1@x"⟩, ⟨7, "a@x"⟩, ⟨7, "b@x"⟩]).2) :=
  sendInvitesOnUpdate_organizer_and_attendee_diff
    ⟨7, "t", "", "o2@x", "a@x,c@x", "", "", "R", "S"⟩
    ⟨7, "t", "", "o1@x", "a@x,b@x", "", "", "R", "S"⟩
    "o1@x" "o2@x" "a@x" "b@x" "c@x" rfl rfl (by decide) (by decide)
    (by decide) (by decide) (by decide) (by decide) (by decide) (by decide)
    (by decide) (by decide) (by decide) (by decide) (by decide) (by decide)

lemma addedLoop_jobs_shape (res : Reservation) (rid : Nat) (pl : List String) :
    ∀ (l : List String) (led : List LedgerRow) (job : EnqueuedJob),
      job ∈ (addedLoop res rid pl l led).1 →
      ∃ addr, job = ⟨.invite_update, res, [addr], inviteUpdatedTemplate res⟩ := by
  intro l
  induction l with
  | nil => intro led job h; simp [addedLoop] at h
  | cons addr rest ih =>
    intro led job h
    simp only [addedLoop] at h
    split at h
    · exact ih led job h
    · rcases List.mem_cons.mp h with h | h
      · exact ⟨addr, h⟩
      · exact ih _ job h

lemma removedLoop_jobs_shape (prev : Reservation) (rid : Nat) (nl : List String) :
    ∀ (l : List String) (led : List LedgerRow) (job : EnqueuedJob),
      job ∈ (removedLoop prev rid nl l led).1 →
      ∃ addr, job = ⟨.invite_cancel, prev, [addr], inviteCancelledTemplate prev⟩ := by
  intro l
  induction l with
  | nil => intro led job h; simp [removedLoop] at h
  | cons addr rest ih =>
    intro led job h
    simp only [removedLoop] at h
    split at h
    · exact ih led job h
    · rcases List.mem_cons.mp h with h | h
      · exact ⟨addr, h⟩
      · exact ih _ job h

/-- C10 (implicit): every job enqueued by `sendInvitesOnUpdate` obeys the
snapshot discipline — an `invite_cancel` job always carries the previous
reservation snapshot and a cancellation template rendered from that
previous snapshot, while an `invite_update` job always carries the updated
snapshot and a template rendered from it; a removed attendee or replaced
organizer is cancelled against the version they were last invited to. -/
theorem update_jobs_use_correct_snapshots
    (reservation previousReservation : Reservation) (ledger : List LedgerRow)
    (job : EnqueuedJob)
    (hmem : job ∈ (sendInvitesOnUpdate reservation previousReservation ledger).1) :
    (job.jobType = .invite_cancel →
      job.reservation = previousReservation
      ∧ job.template = inviteCancelledTemplate previousReservation)
    ∧ (job.jobType = .invite_update →
      job.reservation = reservation
      ∧ job.template = inviteUpdatedTemplate reservation) := by
  simp only [sendInvitesOnUpdate] at hmem
  rcases List.mem_append.mp hmem with h | h
  · rcases List.mem_append.mp h with h | h
    · split at h
      · rcases List.mem_cons.mp h with h | h
        · subst h
          exact ⟨fun hk => by simp at hk, fun _ => ⟨rfl, rfl⟩⟩
        · rcases List.mem_cons.mp h with h | h
          · subst h
            exact ⟨fun _ => ⟨rfl, rfl⟩, fun hk => by simp at hk⟩
          · simp at h
      · simp at h
    · obtain ⟨addr, rfl⟩ := addedLoop_jobs_shape _ _ _ _ _ _ h
      exact ⟨fun hk => by simp at hk, fun _ => ⟨rfl, rfl⟩⟩
  · obtain ⟨addr, rfl⟩ := removedLoop_jobs_shape _ _ _ _ _ _ h
    exact ⟨fun _ => ⟨rfl, rfl⟩, fun hk => by simp at hk⟩

/-- C10 witness: the cancel job produced for a removed attendee carries the
previous snapshot and the cancellation template rendered from it. -/
theorem update_jobs_use_correct_snapshots_witness :
    ((⟨.invite_cancel, ⟨7, "t", "", "o@x", "b@x", "", "", "R", "S"⟩, ["b@x"],
        inviteCancelledTemplate ⟨7, "t", "", "o@x", "b@x", "", "", "R", "S"⟩⟩ :
      EnqueuedJob).reservation = ⟨7, "t", "", "o@x", "b@x", "", "", "R", "S"⟩
    ∧ (⟨.invite_cancel, ⟨7, "t", "", "o@x", "b@x", "", "", "R", "S"⟩, ["b@x"],
        inviteCancelledTemplate ⟨7, "t", "", "o@x", "b@x", "", "", "R", "S"⟩⟩ :
      EnqueuedJob).template
        = inviteCancelledTemplate ⟨7, "t", "", "o@x", "b@x", "", "", "R", "S"⟩) :=
  (update_jobs_use_correct_snapshots
      ⟨7, "t", "", "o@x", "", "", "", "R", "S"⟩
      ⟨7, "t", "", "o@x", "b@x", "", "", "R", "S"⟩ []
      ⟨.invite_cancel, ⟨7, "t", "", "o@x", "b@x", "", "", "R", "S"⟩, ["b@x"],
        inviteCancelledTemplate ⟨7, "t", "", "o@x", "b@x", "", "", "R", "S"⟩⟩
      (by decide)).1 rfl

/-- C9 (amended): `buildICS` is deterministic as a function of its inputs
and the invocation clock: for a fixed clock reading the document is
wholly determined by (method, reservation, attendees), and two builds of
the same inputs at different clock readings agree on every line except
the `DTSTAMP` line (index 7 of the assembled line array), which carries
the formatted invocation time. -/
theorem buildICS_deterministic_given_clock :
    (∀ (method : String) (reservation : Reservation) (attendees : List String)
        (now₁ now₂ : JSDate),
      (buildICSRawLines method reservation attendees now₁).eraseIdx 7
        = (buildICSRawLines method reservation attendees now₂).eraseIdx 7)
    ∧ (∀ (method : String) (reservation : Reservation)
        (attendees : List String) (now : JSDate),
      (buildICSRawLines method reservation attendees now)[7]?
        = some ("DTSTAMP:" ++ formatICSDateObj now)) := by
  constructor
  · intro method reservation attendees now₁ now₂
    rfl
  · intro method reservation attendees now
    rfl

set_option maxRecDepth 20000 in
/-- C9 counterexample: the `DTSTAMP` line is built from `new Date()` — the
invocation clock — so two invocations of `buildICS` on identical
(method, reservation, attendees) one minute apart return different
document text: the function is not deterministic in its declared inputs
alone. -/
theorem buildICS_differs_across_clock :
    buildICS "REQUEST"
        ⟨7, "t", "d", "o@x", "", "2025-01-06 09:00:00",
          "2025-01-06 10:00:00", "R", "S"⟩ [] (mkDate 2025 1 5 12 30)
      ≠ buildICS "REQUEST"
        ⟨7, "t", "d", "o@x", "", "2025-01-06 09:00:00",
          "2025-01-06 10:00:00", "R", "S"⟩ [] (mkDate 2025 1 5 12 31) := by
  decide

lemma strApp_data (s t : String) : (s ++ t).data = s.data ++ t.data := by
  cases s
  cases t
  rfl

lemma take2_of_append (p x : String) (h : 2 ≤ p.data.length) :
    (p ++ x).data.take 2 = p.data.take 2 := by
  rw [strApp_data, List.take_append_eq_append_take, Nat.sub_eq_zero_of_le h,
    List.take_zero, List.append_nil]

lemma two_le_len_left (p x : String) (h : 2 ≤ p.data.length) :
    2 ≤ (p ++ x).data.length := by
  rw [strApp_data, List.length_append]
  omega

lemma joinCRLF_take2 (c : List Char) (l : List String)
    (h : ∀ s ∈ l, s.data.take 2 = c ∧ 2 ≤ s.data.length) :
    joinCRLF l = "" ∨ (joinCRLF l).data.take 2 = c := by
  cases l with
  | nil => left; rfl
  | cons x xs =>
    cases xs with
    | nil => right; exact (h x (by simp)).1
    | cons y rest =>
      right
      have hx := h x (by simp)
      rw [show joinCRLF (x :: y :: rest)
          = (x ++ "\r\n") ++ joinCRLF (y :: rest) by rw [joinCRLF]; simp]
      rw [take2_of_append _ _ (two_le_len_left _ _ hx.2), take2_of_append _ _ hx.2]
      exact hx.1

/-- C8: every document built by `buildICS` carries the UID line
`UID:reservation-<id>@briya.org`, and that UID is a function of the
booking's persistent id alone — it is identical across create, update and
cancel builds; a document built with method CANCEL contains the
`STATUS:CANCELLED` line, and no document built with method REQUEST
contains it. -/
theorem buildICS_uid_and_cancel_marker :
    (∀ (method : String) (reservation : Reservation)
        (attendees : List String) (now : JSDate),
      ("UID:" ++ icsUID reservation)
        ∈ buildICSLines method reservation attendees now)
    ∧ (∀ r₁ r₂ : Reservation, r₁.id = r₂.id → icsUID r₁ = icsUID r₂)
    ∧ (∀ (reservation : Reservation) (attendees : List String) (now : JSDate),
      "STATUS:CANCELLED" ∈ buildICSLines "CANCEL" reservation attendees now)
    ∧ (∀ (reservation : Reservation) (attendees : List String) (now : JSDate),
      "STATUS:CANCELLED" ∉ buildICSLines "REQUEST" reservation attendees now) := by
  refine ⟨?_, ?_, ?_, ?_⟩
  · intro method reservation attendees now
    rw [buildICSLines, List.mem_filter]
    constructor
    · simp only [buildICSRawLines]
      simp
    · simp only [decide_eq_true_eq]
      intro he
      have hd := congrArg String.data he
      rw [strApp_data] at hd
      exact absurd (List.append_eq_nil.mp hd).1 (by decide)
  · intro r₁ r₂ h
    simp [icsUID, h]
  · intro reservation attendees now
    rw [buildICSLines, List.mem_filter]
    constructor
    · simp only [buildICSRawLines]
      simp
    · decide
  · intro reservation attendees now hmem
    rw [buildICSLines, List.mem_filter] at hmem
    obtain ⟨hin, _⟩ := hmem
    simp only [buildICSRawLines] at hin
    rw [if_neg (show ¬(("REQUEST" : String) = "CANCEL") by decide)] at hin
    simp only [List.mem_cons, List.not_mem_nil, or_false] at hin
    rcases hin with h|h|h|h|h|h|h|h|h|h|h|h|h|h|h|h|h|h
    · exact absurd h (by decide)
    · exact absurd h (by decide)
    · exact absurd h (by decide)
    · exact absurd h (by decide)
    · exact absurd h (by decide)
    · exact absurd h (by decide)
    · have h2 := congrArg (fun s : String => s.data.take 2) h
      simp only at h2
      rw [take2_of_append _ _ (by decide)] at h2
      exact absurd h2 (by decide)
    · have h2 := congrArg (fun s : String => s.data.take 2) h
      simp only at h2
      rw [take2_of_append _ _ (by decide)] at h2
      exact absurd h2 (by decide)
    · have h2 := congrArg (fun s : String => s.data.take 2) h
      simp only at h2
      rw [take2_of_append _ _ (by decide)] at h2
      exact absurd h2 (by decide)
    · have h2 := congrArg (fun s : String => s.data.take 2) h
      simp only at h2
      rw [take2_of_append _ _ (by decide)] at h2
      exact absurd h2 (by decide)
    · have h2 := congrArg (fun s : String => s.data.take 2) h
      simp only at h2
      rw [take2_of_append _ _ (by decide)] at h2
      exact absurd h2 (by decide)
    · have h2 := congrArg (fun s : String => s.data.take 2) h
      simp only at h2
      rw [take2_of_append _ _ (by decide)] at h2
      exact absurd h2 (by decide)
    · have h2 := congrArg (fun s : String => s.data.take 2) h
      simp only at h2
      rw [take2_of_append _ _ (by decide)] at h2
      exact absurd h2 (by decide)
    · by_cases hcond : reservation.email = ""
      · rw [if_neg (not_not_intro hcond)] at h
        exact absurd h (by decide)
      · rw [if_pos hcond] at h
        have h2 := congrArg (fun s : String => s.data.take 2) h
        simp only at h2
        rw [take2_of_append _ _ (by decide)] at h2
        exact absurd h2 (by decide)
    · have hall : ∀ s ∈ attendees.map (fun addr =>
          "ATTENDEE;CN=" ++ escapeICS addr ++ ";RSVP=TRUE:MAILTO:" ++ addr),
          s.data.take 2 = ['A', 'T'] ∧ 2 ≤ s.data.length := by
        intro s hs
        obtain ⟨addr, _, rfl⟩ := List.mem_map.mp hs
        have l1 : 2 ≤ ("ATTENDEE;CN=" : String).data.length := by decide
        have l2 := two_le_len_left ("ATTENDEE;CN=" : String) (escapeICS addr) l1
        have l3 := two_le_len_left _ ";RSVP=TRUE:MAILTO:" l2
        constructor
        · rw [take2_of_append _ addr l3, take2_of_append _ _ l2,
            take2_of_append _ _ l1]
          decide
        · exact two_le_len_left _ _ l3
      rcases joinCRLF_take2 ['A', 'T'] _ hall with hj | hj
      · rw [hj] at h
        exact absurd h (by decide)
      · rw [← h] at hj
        exact absurd hj (by decide)
    · exact absurd h (by decide)
    · exact absurd h (by decide)
    · exact absurd h (by decide)

/-- C8 witness: UID stability and the cancellation marker at concrete
inputs — two builds of the same booking id (with different titles) share
the UID, the CANCEL document carries `STATUS:CANCELLED`, the REQUEST
document does not. -/
theorem buildICS_uid_and_cancel_marker_witness :
    ("UID:" ++ icsUID ⟨7, "t", "d", "o@x", "", "2025-01-06 09:00:00",
        "2025-01-06 10:00:00", "R", "S"⟩)
      ∈ buildICSLines "REQUEST"
        ⟨7, "t", "d", "o@x", "", "2025-01-06 09:00:00",
          "2025-01-06 10:00:00", "R", "S"⟩ ["a@x"] (mkDate 2025 1 5 12 30)
    ∧ icsUID ⟨7, "t", "d", "o@x", "", "2025-01-06 09:00:00",
        "2025-01-06 10:00:00", "R", "S"⟩
      = icsUID ⟨7, "t2", "d2", "o2@x", "", "2025-02-06 09:00:00",
        "2025-02-06 10:00:00", "R2", "S2"⟩
    ∧ "STATUS:CANCELLED" ∈ buildICSLines "CANCEL"
        ⟨7, "t", "d", "o@x", "", "2025-01-06 09:00:00",
          "2025-01-06 10:00:00", "R", "S"⟩ [] (mkDate 2025 1 5 12 30)
    ∧ "STATUS:CANCELLED" ∉ buildICSLines "REQUEST"
        ⟨7, "t", "d", "o@x", "", "2025-01-06 09:00:00",
          "2025-01-06 10:00:00", "R", "S"⟩ [] (mkDate 2025 1 5 12 30) :=
  ⟨buildICS_uid_and_cancel_marker.1 "REQUEST"
      ⟨7, "t", "d", "o@x", "", "2025-01-06 09:00:00",
        "2025-01-06 10:00:00", "R", "S"⟩ ["a@x"] (mkDate 2025 1 5 12 30),
   buildICS_uid_and_cancel_marker.2.1
      ⟨7, "t", "d", "o@x", "", "2025-01-06 09:00:00",
        "2025-01-06 10:00:00", "R", "S"⟩
      ⟨7, "t2", "d2", "o2@x", "", "2025-02-06 09:00:00",
        "2025-02-06 10:00:00", "R2", "S2"⟩ rfl,
   buildICS_uid_and_cancel_marker.2.2.1
      ⟨7, "t", "d", "o@x", "", "2025-01-06 09:00:00",
        "2025-01-06 10:00:00", "R", "S"⟩ [] (mkDate 2025 1 5 12 30),
   buildICS_uid_and_cancel_marker.2.2.2
      ⟨7, "t", "d", "o@x", "", "2025-01-06 09:00:00",
        "2025-01-06 10:00:00", "R", "S"⟩ [] (mkDate 2025 1 5 12 30)⟩
